import Mathlib

/-
  Verification of the arras4_node worker-node agent against its
  natural-language specification.

  Each definition below is a shallow embedding of a function from the C++
  sources, with the source file and line range noted in its doc comment.
  Machine ids (128-bit UUIDs) are modelled as Nat with 0 standing for the
  null UUID; wall-clock and steady-clock instants are modelled as Nat
  seconds.  Blocking waits with deadlines are modelled by a Bool oracle
  that says whether the awaited event arrives before the deadline.
-/

set_option autoImplicit false

namespace Arras

/-- Identifier type standing for api::UUID; 0 models UUID::null. -/
abbrev UUID := Nat

/-- Model of the reserved null UUID (api::UUID::null / UUID()). -/
def nullUUID : UUID := 0

/-- HTTP status code 409, from http/http_types.h. -/
def HTTP_RESOURCE_CONFLICT : Nat := 409

/-- HTTP status code 500, from http/http_types.h. -/
def HTTP_INTERNAL_SERVER_ERROR : Nat := 500

/-- HTTP status code 404, from http/http_types.h. -/
def HTTP_NOT_FOUND : Nat := 404

/-- Model of SessionError (src/lib/session/SessionError.h): a detail string
plus an HTTP status code, defaulting to 500 at the throw sites that give
no code. -/
structure SessErr where
  message : String
  httpCode : Nat
deriving DecidableEq, Repr

/-- Session lifecycle states (src/lib/session/Session.h, SessionState). -/
inductive SessionState
  | Free
  | Busy
  | Defunct
deriving DecidableEq, Repr

/-- State check and transition performed by Session::asyncUpdateConfig
(src/lib/session/Session.cc lines 197-227) under mStateMutex: throws when
shutting down, throws 409 when Busy or Defunct, otherwise moves the session
to Busy and starts the operation thread. -/
def asyncUpdateConfigState (shuttingDown : Bool) (st : SessionState) :
    Except SessErr SessionState :=
  if shuttingDown then
    .error ⟨"Session is shutting down", HTTP_INTERNAL_SERVER_ERROR⟩
  else if st = SessionState.Busy then
    .error ⟨"Session is busy and cannot be modified", HTTP_RESOURCE_CONFLICT⟩
  else if st = SessionState.Defunct then
    .error ⟨"Session is defunct and cannot be modified", HTTP_RESOURCE_CONFLICT⟩
  else
    .ok SessionState.Busy

/-- State check and transition performed by Session::asyncDelete
(src/lib/session/Session.cc lines 229-257), identical discipline to
asyncUpdateConfig with delete-specific messages. -/
def asyncDeleteState (shuttingDown : Bool) (st : SessionState) :
    Except SessErr SessionState :=
  if shuttingDown then
    .error ⟨"Session is shutting down", HTTP_INTERNAL_SERVER_ERROR⟩
  else if st = SessionState.Busy then
    .error ⟨"Session is busy and cannot be deleted", HTTP_RESOURCE_CONFLICT⟩
  else if st = SessionState.Defunct then
    .error ⟨"Session is defunct and cannot be deleted", HTTP_RESOURCE_CONFLICT⟩
  else
    .ok SessionState.Busy

/-- Final state transition of Session::updateProc
(src/lib/session/Session.cc lines 297-314): the operation thread sets the
state back to Free, but only when it is still Busy. -/
def updateProcFinish (st : SessionState) : SessionState :=
  if st = SessionState.Busy then SessionState.Free else st

/-- Final state transition of Session::deleteProc
(src/lib/session/Session.cc lines 316-350): the state is set to Defunct
unconditionally once computations have been shut down. -/
def deleteProcFinish (_st : SessionState) : SessionState :=
  SessionState.Defunct

/-- Model of Session::syncShutdown (src/lib/session/Session.cc lines
265-295).  It sets mShuttingDown, waits (bounded by the 30 s
WAIT_FOR_SHUTDOWN_TIMEOUT) while the state is Busy, throwing a plain
SessionError (default code 500) on timeout; otherwise it runs deleteProc
synchronously.  The Bool opCompletesInTime abstracts whether a running
operation signals mOperationComplete before the deadline. -/
def syncShutdownState (opCompletesInTime : Bool) (st : SessionState) :
    Except SessErr SessionState :=
  if st = SessionState.Busy && !opCompletesInTime then
    .error ⟨"Session shutdown took too long", HTTP_INTERNAL_SERVER_ERROR⟩
  else
    .ok (deleteProcFinish st)

/-- Milliseconds in the WAIT_FOR_SHUTDOWN_TIMEOUT constant
(src/lib/session/Session.cc line 18). -/
def WAIT_FOR_SHUTDOWN_TIMEOUT_MS : Nat := 30000

/- ----------------------------------------------------------------- -/
/-  Session map operations (ArrasSessions)                            -/
/- ----------------------------------------------------------------- -/

/-- The session map mSessions of ArrasSessions, keyed by session id. -/
abbrev SessionMap := List (UUID × SessionState)

/-- Lookup in the session map (ArrasSessions::getSession_wlock,
src/lib/session/ArrasSessions.cc lines 68-75). -/
def findSession (m : SessionMap) (id : UUID) : Option SessionState :=
  match m with
  | [] => none
  | (k, st) :: rest => if k = id then some st else findSession rest id

/-- Insertion of a new session into the map (mSessions[id] = session for a
fresh id). -/
def insertSession (m : SessionMap) (id : UUID) (st : SessionState) : SessionMap :=
  m ++ [(id, st)]

/-- Removal of a session id from the map (mSessions.erase(id)). -/
def eraseSession (m : SessionMap) (id : UUID) : SessionMap :=
  m.filter (fun p => !(p.1 = id : Bool))

/-- Update of the state recorded for a session id already in the map. -/
def setSession (m : SessionMap) (id : UUID) (st : SessionState) : SessionMap :=
  m.map (fun p => if p.1 = id then (p.1, st) else p)

/-- Milliseconds in the WAIT_FOR_ROUTER_HAS_ROUTING deadline used by
ArrasController::initializeSession (src/lib/session/ArrasController.cc
line 24): the create call blocks for the router acknowledgement for at
most this long. -/
def WAIT_FOR_ROUTER_HAS_ROUTING_MS : Nat := 10000

/-- Result of ArrasSessions::createSession: the session map afterwards, the
error thrown if any (none means the 200 response is returned), and whether
a SessionRoutingData message with the Initialize action was sent to the
router. -/
structure CreateResult where
  map : SessionMap
  error : Option SessErr
  sentInit : Bool
deriving DecidableEq, Repr

/-- Model of ArrasSessions::createSession (src/lib/session/ArrasSessions.cc
lines 137-185).  Throws 409 when the node is closed; throws 409 when any
session with the same id is already in the map, Defunct ones included;
otherwise inserts a fresh session, sends SessionRoutingData Initialize to
the router and blocks for the Acknowledge reply
(ArrasController::initializeSession, src/lib/session/ArrasController.cc
lines 295-311), erasing the new entry and throwing 500 when no
acknowledgement arrives within WAIT_FOR_ROUTER_HAS_ROUTING_MS; finally
starts the asynchronous config update, which moves the fresh Free session
to Busy (erasing the entry and rethrowing if that throws).  The Bool
routerAcks abstracts arrival of the Acknowledge within the deadline. -/
def createSession (closed routerAcks : Bool) (m : SessionMap) (id : UUID) :
    CreateResult :=
  if closed then
    ⟨m, some ⟨"Node is closed : cannot accept new sessions", HTTP_RESOURCE_CONFLICT⟩, false⟩
  else
    match findSession m id with
    | some _ => ⟨m, some ⟨"Session already exists", HTTP_RESOURCE_CONFLICT⟩, false⟩
    | none =>
      let m1 := insertSession m id SessionState.Free
      if routerAcks then
        match asyncUpdateConfigState false SessionState.Free with
        | .ok st => ⟨setSession m1 id st, none, true⟩
        | .error e => ⟨eraseSession m1 id, some e, true⟩
      else
        ⟨eraseSession m1 id,
         some ⟨"Failed to initialize session with node router", HTTP_INTERNAL_SERVER_ERROR⟩,
         true⟩

/-- Model of ArrasSessions::deleteSession (src/lib/session/ArrasSessions.cc
lines 207-223) together with the completion of the spawned deleteProc
thread (src/lib/session/Session.cc lines 316-350): 404 when the id is
unknown, the asyncDelete state check otherwise, and on success the entry
stays in the map marked Defunct (the code comments that the record is kept
indefinitely). -/
def deleteSessionCompleted (m : SessionMap) (id : UUID) :
    SessionMap × Option SessErr :=
  match findSession m id with
  | none => (m, some ⟨"Session doesn't exist", HTTP_NOT_FOUND⟩)
  | some st =>
    match asyncDeleteState false st with
    | .error e => (m, some e)
    | .ok busy => (setSession m id (deleteProcFinish busy), none)

/- ----------------------------------------------------------------- -/
/-  Node-to-node connection tie-break (NodeRouter)                    -/
/- ----------------------------------------------------------------- -/

/-- Which side dialed the live socket of a node-to-node connection. -/
inductive ConnInitiator
  | localNode
  | remoteNode
deriving DecidableEq, Repr

/-- A tracked node peer record (an entry of PeerManager::mNodes for one
remote node).  The socket field holds the dialer of the live socket; none
models a RemoteEndpoint whose mPeer is still null, waiting in
sendThreadWithConnect for the remote side to call setPeer. -/
structure NodeRecord where
  socket : Option ConnInitiator
deriving DecidableEq, Repr

/-- Outcome classification of the node connect filter, matching the log
branches of NodeRouter::threadProc (src/cmd/node/router/NodeRouter.cc
lines 317-408). -/
inductive NodeFilterAction
  | acceptedNew
  | swapped
  | refusedReciprocal
  | refusedKeepExisting
  | ignoredUnknown
deriving DecidableEq, Repr

/-- Model of RemoteEndpoint::createNodeRemoteEndpoint together with
sendThreadWithConnect (src/cmd/node/router/RemoteEndpoint.cc lines
152-201, 419-429): the endpoint dials remoteId and, when remoteId is less
than the local id, keeps the outbound socket as the live connection;
otherwise the outbound socket is only used to announce the node and the
endpoint waits for the greater remote to connect back via setPeer. -/
def createNodeEndpoint (localId remoteId : UUID) : NodeRecord :=
  if remoteId < localId then ⟨some ConnInitiator.localNode⟩ else ⟨none⟩

/-- Model of the NODE registration connect filter
(src/cmd/node/router/NodeRouter.cc lines 317-408).  existing is the
current PeerManager record for the registering peer; nodeInfoKnown says
whether ThreadedNodeRouter::findNodeInfo finds endpoint data for it.
Returns the record tracked afterwards and the action taken. -/
def nodeConnectFilter (localId peerId : UUID) (nodeInfoKnown : Bool)
    (existing : Option NodeRecord) : Option NodeRecord × NodeFilterAction :=
  match existing with
  | none =>
    if peerId < localId then
      if nodeInfoKnown then
        (some (createNodeEndpoint localId peerId), NodeFilterAction.refusedReciprocal)
      else
        (none, NodeFilterAction.ignoredUnknown)
    else
      (some ⟨some ConnInitiator.remoteNode⟩, NodeFilterAction.acceptedNew)
  | some r =>
    if peerId < localId then
      (some r, NodeFilterAction.refusedKeepExisting)
    else
      (some ⟨some ConnInitiator.remoteNode⟩, NodeFilterAction.swapped)

/-- Statement that a node peer record's live socket, if any, was dialed by
the node with the numerically greater id. -/
def socketFromGreater (localId peerId : UUID) : Option ConnInitiator → Bool
  | none => true
  | some ConnInitiator.localNode => decide (peerId < localId)
  | some ConnInitiator.remoteNode => decide (localId < peerId)

/- ----------------------------------------------------------------- -/
/-  Peer registry client tracking and stashing (PeerManager)          -/
/- ----------------------------------------------------------------- -/

/-- Envelopes are opaque to the registry; model them by a Nat tag. -/
abbrev Env := Nat

/-- The slice of PeerManager state relevant to one session id: the tracked
client endpoint (an entry of mClients), the per-endpoint send queues, and
the pending-envelope list mPendingEnvelopes for that session. -/
structure PeerRegistry where
  client : Option Nat
  queues : Nat → List Env
  pending : List Env

/-- A peer registry with no client, empty queues and nothing stashed. -/
def emptyReg : PeerRegistry := ⟨none, fun _ => [], []⟩

/-- One RemoteEndpoint::queueEnvelope push onto an endpoint's send queue. -/
def queuePush (qs : Nat → List Env) (ep : Nat) (e : Env) : Nat → List Env :=
  fun k => if k = ep then qs k ++ [e] else qs k

/-- The loop in PeerManager::trackClient that pushes each stashed envelope
in turn onto the new client's send queue. -/
def queuePushAll (qs : Nat → List Env) (ep : Nat) (msgs : List Env) : Nat → List Env :=
  msgs.foldl (fun acc e => queuePush acc ep e) qs

/-- Model of PeerManager::trackClient (src/cmd/node/router/PeerManager.cc
lines 39-54): under the registry mutex, record the client endpoint in
mClients and push every envelope of mPendingEnvelopes for the session onto
its send queue.  The pending list itself is left as it was (the code
neither clears the vector nor erases the map entry). -/
def trackClient (st : PeerRegistry) (ep : Nat) : PeerRegistry :=
  { client := some ep,
    queues := queuePushAll st.queues ep st.pending,
    pending := st.pending }

/-- Model of PeerManager::stashEnvelope (src/cmd/node/router/PeerManager.cc
lines 149-163): under the same registry mutex, re-check for the client and
either push the envelope onto its queue or append it to the pending
list. -/
def stashEnvelope (st : PeerRegistry) (e : Env) : PeerRegistry :=
  match st.client with
  | some ep => { st with queues := queuePush st.queues ep e }
  | none => { st with pending := st.pending ++ [e] }

/-- Model of PeerManager::clearStashedEnvelopes
(src/cmd/node/router/PeerManager.cc lines 165-170). -/
def clearStashedEnvelopes (st : PeerRegistry) : PeerRegistry :=
  { st with pending := [] }

/- ----------------------------------------------------------------- -/
/-  HTTP ban list (BanList, UrlRouter)                                -/
/- ----------------------------------------------------------------- -/

/-- One entry of the ban list map (src/cmd/node/BanList.h, BanListEntry):
the cumulative count of bad requests and the last-update timestamp,
modelled in whole seconds. -/
structure BanEntry where
  count : Nat
  timeStamp : Nat
deriving DecidableEq, Repr

/-- Model of the BanList class (src/cmd/node/BanList.h): the ban threshold,
the un-ban window in seconds, and the source-address map. -/
structure BanList where
  countToBan : Nat
  secToUnBan : Nat
  map : List (String × BanEntry)
deriving DecidableEq, Repr

/-- The default-constructed ban list of NodeService: countToBan 5,
secToUnBan 300 (src/cmd/node/BanList.h line 31). -/
def defaultBanList : BanList := ⟨5, 300, []⟩

/-- Lookup of a source address in the ban list map. -/
def lookupBan (m : List (String × BanEntry)) (src : String) : Option BanEntry :=
  match m with
  | [] => none
  | (k, e) :: rest => if k = src then some e else lookupBan rest src

/-- Replacement of a source address entry in the ban list map. -/
def setBan (m : List (String × BanEntry)) (src : String) (e : BanEntry) :
    List (String × BanEntry) :=
  m.map (fun p => if p.1 = src then (p.1, e) else p)

/-- Erasure of a source address from the ban list map. -/
def eraseBan (m : List (String × BanEntry)) (src : String) :
    List (String × BanEntry) :=
  m.filter (fun p => !(p.1 = src : Bool))

/-- Model of BanList::hasExpired (src/cmd/node/BanList.cc lines 87-92):
the entry has expired once strictly more than secToUnBan seconds have
passed since its timestamp. -/
def banExpired (bl : BanList) (now ts : Nat) : Bool :=
  bl.secToUnBan < now - ts

/-- Model of BanList::isBanned (src/cmd/node/BanList.cc lines 20-50).
Returns the verdict and the updated ban list: an absent source is not
banned; an expired entry is erased and the source is not banned; an entry
whose count has just reached the threshold has its count bumped and its
timestamp refreshed (so that the ban period starts now); the verdict is
whether the entry's count has reached countToBan. -/
def isBanned (bl : BanList) (now : Nat) (src : String) : Bool × BanList :=
  match lookupBan bl.map src with
  | none => (false, bl)
  | some e =>
    if banExpired bl now e.timeStamp then
      (false, { bl with map := eraseBan bl.map src })
    else if e.count = bl.countToBan then
      (decide (bl.countToBan ≤ e.count + 1),
       { bl with map := setBan bl.map src ⟨e.count + 1, now⟩ })
    else
      (decide (bl.countToBan ≤ e.count), bl)

/-- Model of BanList::track (src/cmd/node/BanList.cc lines 53-68): insert a
fresh entry with count 1, or bump the count and refresh the timestamp. -/
def trackBan (bl : BanList) (now : Nat) (src : String) : BanList :=
  match lookupBan bl.map src with
  | none => { bl with map := bl.map ++ [(src, ⟨1, now⟩)] }
  | some e => { bl with map := setBan bl.map src ⟨e.count + 1, now⟩ }

/-- Model of UrlRouter::handle for the GET router with the ban list
installed (src/cmd/node/UrlRouter.cc lines 173-201).  knownEndpoint says
whether the path tree finds a handler; requests from a banned source are
answered 429 before dispatch; an unmatched GET is answered 404 by
NodeService::GET_unhandled (src/cmd/node/NodeService.cc lines 142-149) and
the source is then tracked.  Returns the status code and ban list. -/
def handleGet (bl : BanList) (now : Nat) (src : String) (knownEndpoint : Bool) :
    Nat × BanList :=
  let res := isBanned bl now src
  if res.1 then
    (429, res.2)
  else if knownEndpoint then
    (200, res.2)
  else
    (404, trackBan res.2 now src)

/-- Driver folding handleGet over a request sequence of (time, known
endpoint) pairs from one source, collecting the response codes. -/
def runGetRequests (bl : BanList) (src : String) :
    List (Nat × Bool) → List Nat × BanList
  | [] => ([], bl)
  | (now, known) :: rest =>
    let r := handleGet bl now src known
    let rec' := runGetRequests r.2 src rest
    (r.1 :: rec'.1, rec'.2)

/- ----------------------------------------------------------------- -/
/-  Message routing (RouteMessage)                                    -/
/- ----------------------------------------------------------------- -/

/-- An envelope destination address (api::Address): session, node and
computation ids, any of which may be null. -/
structure Address where
  session : UUID
  node : UUID
  computation : UUID
deriving DecidableEq, Repr

/-- Address lists grouped by a key id, standing for the std::map of UUID to
AddressList built by parseDestinationAddressLists. -/
abbrev AddrGroups := List (UUID × List Address)

/-- Append an address to the group of a key, creating the group when
absent. -/
def addToGroup (g : AddrGroups) (k : UUID) (a : Address) : AddrGroups :=
  match g with
  | [] => [(k, [a])]
  | (k2, l) :: rest =>
    if k2 = k then (k2, l ++ [a]) :: rest else (k2, l) :: addToGroup rest k a

/-- The address list recorded for a key, empty when the key is absent. -/
def groupGet (g : AddrGroups) (k : UUID) : List Address :=
  match g with
  | [] => []
  | (k2, l) :: rest => if k2 = k then l else groupGet rest k

/-- Loop body of parseDestinationAddressLists
(src/cmd/node/router/RouteMessage.cc lines 23-56), carried out by
structural recursion over the to-list with the accumulated ipc groups,
node groups and client flag. -/
def parseDestLoop (localNodeId : UUID) (aTo : List Address)
    (ipc nodes : AddrGroups) (toClient : Bool) : AddrGroups × AddrGroups × Bool :=
  match aTo with
  | [] => (ipc, nodes, toClient)
  | a :: rest =>
    if a.node = nullUUID then
      parseDestLoop localNodeId rest ipc nodes true
    else if a.node = localNodeId then
      if a.computation ≠ nullUUID then
        parseDestLoop localNodeId rest (addToGroup ipc a.computation a) nodes toClient
      else
        parseDestLoop localNodeId rest ipc nodes toClient
    else
      parseDestLoop localNodeId rest ipc (addToGroup nodes a.node a) toClient

/-- Model of parseDestinationAddressLists
(src/cmd/node/router/RouteMessage.cc lines 23-56): split the destination
list into per-computation groups for this node, per-node groups for remote
nodes, and a flag saying some destination has a null node id (the external
client). -/
def parseDestinationAddressLists (localNodeId : UUID) (aTo : List Address) :
    AddrGroups × AddrGroups × Bool :=
  parseDestLoop localNodeId aTo [] [] false

/-- The per-session routing data fields used by routeMessage
(src/cmd/node/router/SessionRoutingData.h, SessionNodeMap).  nodeInfoKnown
says whether the session's node map holds endpoint data for a node id. -/
structure RoutingData where
  sessionId : UUID
  nodeId : UUID
  isEntry : Bool
  entryNodeId : UUID
  nodeInfoKnown : UUID → Bool

/-- The peer registry lookups used by routeMessage: whether a client peer
is tracked for a session id, whether a computation (IPC) peer is tracked,
and whether a node peer is tracked. -/
structure RouterRegistry where
  clientPeer : UUID → Bool
  ipcPeer : UUID → Bool
  nodePeer : UUID → Bool

/-- Observable effect of routing one envelope, in the order performed. -/
inductive Delivery
  | clientQueue (sessionId : UUID)
  | stashedForClient (sessionId : UUID)
  | toComputation (comp : UUID)
  | compNotFound (comp : UUID)
  | toNode (node : UUID) (dests : List Address) (lazilyCreated : Bool)
deriving DecidableEq, Repr

/-- Loop over the remote-node groups at the end of routeMessage
(src/cmd/node/router/RouteMessage.cc lines 146-175): an existing node peer
gets the envelope with the group's reduced destination list; otherwise a
node peer is lazily created by dialing the endpoint looked up in the
session routing data's node map (SessionNodeMap::getNodeInfo,
src/cmd/node/router/SessionNodeMap.cc lines 76-87, which throws KeyError
for an unknown node, aborting the routing call). -/
def nodeGroupLoop (rd : RoutingData) :
    AddrGroups → List Delivery → RouterRegistry →
    Except String (List Delivery × RouterRegistry)
  | [], ds, reg => .ok (ds, reg)
  | (n, l) :: rest, ds, reg =>
    if reg.nodePeer n then
      nodeGroupLoop rd rest (ds ++ [Delivery.toNode n l false]) reg
    else if rd.nodeInfoKnown n then
      nodeGroupLoop rd rest (ds ++ [Delivery.toNode n l true])
        { reg with nodePeer := fun k => if k = n then true else reg.nodePeer k }
    else
      .error "Failed to find node id in SessionNodeMap"

/-- Model of routeMessage (src/cmd/node/router/RouteMessage.cc lines
104-176) applied to the destination list of one envelope.  When some
destination has a null node id: on the session's entry node the envelope
goes to the local client peer, or is stashed when the client has not
connected (sendToLocalClient, lines 65-80); on any other node a
destination holding only the session id is added to the entry node's
group.  Each computation group goes to the tracked IPC peer
(sendToLocalComputation, lines 84-101, logging an error when absent).
Each remote-node group is then handled by nodeGroupLoop. -/
def routeMessage (rd : RoutingData) (reg : RouterRegistry) (aTo : List Address) :
    Except String (List Delivery × RouterRegistry) :=
  let parsed := parseDestinationAddressLists rd.nodeId aTo
  let ipcLists := parsed.1
  let nodeLists0 := parsed.2.1
  let toClient := parsed.2.2
  let clientDs :=
    if toClient && rd.isEntry then
      if reg.clientPeer rd.sessionId then
        [Delivery.clientQueue rd.sessionId]
      else
        [Delivery.stashedForClient rd.sessionId]
    else []
  let nodeLists :=
    if toClient && !rd.isEntry then
      addToGroup nodeLists0 rd.entryNodeId ⟨rd.sessionId, nullUUID, nullUUID⟩
    else nodeLists0
  let ipcDs := ipcLists.map (fun p =>
    if reg.ipcPeer p.1 then Delivery.toComputation p.1 else Delivery.compNotFound p.1)
  match nodeGroupLoop rd nodeLists (clientDs ++ ipcDs) reg with
  | .ok r => .ok r
  | .error e => .error e

/- ----------------------------------------------------------------- -/
/-  Modify delta (Session::applyNewConfig)                            -/
/- ----------------------------------------------------------------- -/

/-- Whether a computation id is a key of a computation list. -/
def containsKey (l : List (UUID × String)) (k : UUID) : Bool :=
  l.any (fun p => p.1 = k)

/-- Model of Session::getConfigDelta (src/lib/session/Session.cc lines
403-417): existing computations absent from the new config (to shut down)
and config computations absent from the current map (to start). -/
def getConfigDelta (current cfg : List (UUID × String)) :
    List UUID × List (UUID × String) :=
  ((current.filter (fun p => !containsKey cfg p.1)).map (fun p => p.1),
   cfg.filter (fun p => !containsKey current p.1))

/-- Observable per-computation effects of an applyNewConfig run, in
order. -/
inductive CompEffect
  | shutdown (c : UUID)
  | waitedFor (c : UUID)
  | spawned (c : UUID)
deriving DecidableEq, Repr

/-- The wait loop of Session::applyNewConfig (src/lib/session/Session.cc
lines 379-388): each defunct computation is waited on against the shared
30 s deadline, and the first failed wait throws, abandoning the rest. -/
def waitPhase (waitOk : UUID → Bool) : List UUID → List CompEffect × Bool
  | [] => ([], true)
  | c :: rest =>
    if waitOk c then
      let r := waitPhase waitOk rest
      (CompEffect.waitedFor c :: r.1, r.2)
    else
      ([CompEffect.waitedFor c], false)

/-- The spawn loop of Session::applyNewConfig (src/lib/session/Session.cc
lines 391-397): each added computation is started via startNewComputation,
which inserts it into mComputations on success and throws on failure,
abandoning the rest. -/
def spawnPhase (spawnOk : UUID → Bool) :
    List (UUID × String) → List CompEffect × List (UUID × String) × Bool
  | [] => ([], [], true)
  | p :: rest =>
    if spawnOk p.1 then
      let r := spawnPhase spawnOk rest
      (CompEffect.spawned p.1 :: r.1, p :: r.2.1, r.2.2)
    else
      ([], [], false)

/-- Result of an applyNewConfig run: the effects performed, the resulting
computation map, and the error thrown if any. -/
structure ApplyResult where
  effects : List CompEffect
  comps : List (UUID × String)
  error : Option SessErr
deriving DecidableEq, Repr

/-- Model of Session::applyNewConfig (src/lib/session/Session.cc lines
355-398): compute the delta, shut down every defunct computation, wait for
each of them (throwing on timeout), then start every added computation.
Computations present in both the current map and the config are in
neither delta list.  Note the shut-down computations stay in
mComputations (nothing erases them).  The oracles waitOk and spawnOk
abstract waitUntilShutdown and startNewComputation succeeding. -/
def applyNewConfig (current cfg : List (UUID × String))
    (waitOk spawnOk : UUID → Bool) : ApplyResult :=
  let d := getConfigDelta current cfg
  let shutdownFx := d.1.map CompEffect.shutdown
  let w := waitPhase waitOk d.1
  if w.2 then
    let s := spawnPhase spawnOk d.2
    { effects := shutdownFx ++ w.1 ++ s.1,
      comps := current ++ s.2.1,
      error := if s.2.2 then none
               else some ⟨"Cannot start computation", HTTP_INTERNAL_SERVER_ERROR⟩ }
  else
    { effects := shutdownFx ++ w.1,
      comps := current,
      error := some ⟨"Computations did not shutdown within timeout.",
                     HTTP_INTERNAL_SERVER_ERROR⟩ }

/- ----------------------------------------------------------------- -/
/-  Run signals (Computation::signal)                                 -/
/- ----------------------------------------------------------------- -/

/-- Child process states (execute/Process.h, ProcessState). -/
inductive ProcessState
  | NotSpawned
  | Spawned
  | Terminating
  | Exited
deriving DecidableEq, Repr

/-- The data carried by a session signal: its status string and the
addresser-rule payload (the routing object), modelled opaquely. -/
structure SignalData where
  status : String
  routing : Nat
deriving DecidableEq, Repr

/-- A control message sent to a computation via the router
(ArrasController::sendControl): the command string and the signal data
passed along as its payload. -/
structure ControlMsg where
  command : String
  payload : SignalData
deriving DecidableEq, Repr

/-- Model of Computation::signal (src/lib/session/Computation.cc lines
108-137): a run signal to a Spawned computation sends the go control
message the first time (setting the sent-go flag, initially false per
Computation.h line 57) and the update control message carrying the signal
data on every later run; anything else is ignored.  Returns the new
sent-go flag and the control message sent, if any. -/
def compSignal (procState : ProcessState) (sentGo : Bool) (sig : SignalData) :
    Bool × Option ControlMsg :=
  if sig.status = "run" && (procState = ProcessState.Spawned : Bool) then
    if sentGo then
      (sentGo, some ⟨"update", sig⟩)
    else
      (true, some ⟨"go", sig⟩)
  else
    (sentGo, none)

/-- Iterated signalling of one computation: fold compSignal over a signal
sequence, collecting the control messages sent. -/
def signalSeq (procState : ProcessState) :
    Bool → List SignalData → Bool × List ControlMsg
  | sentGo, [] => (sentGo, [])
  | sentGo, sig :: rest =>
    match compSignal procState sentGo sig with
    | (g2, some msg) =>
      let r := signalSeq procState g2 rest
      (r.1, msg :: r.2)
    | (g2, none) => signalSeq procState g2 rest

/- ----------------------------------------------------------------- -/
/-  Client connect filter (NodeRouter, RemoteEndpoint)                -/
/- ----------------------------------------------------------------- -/

/-- The observable shape of a constructed client endpoint: its mSessionId,
whether it resolved routing data, and whether its receive thread was
started (incoming messages are read and routed only when it was). -/
structure ClientEndpoint where
  sessionId : UUID
  hasRoutingData : Bool
  receivesIncoming : Bool
deriving DecidableEq, Repr

/-- Model of the RemoteEndpoint constructor for PEER_CLIENT
(src/cmd/node/router/RemoteEndpoint.cc lines 346-391): a valid (non-null)
session id must resolve routing data or construction throws; a null
session id skips the routing lookup, and the receive thread is started
only when routing data was resolved, so an endpoint built with the null
id never reads incoming messages and can only send. -/
def mkClientEndpoint (sid : UUID) (routingDataExists : UUID → Bool) :
    Except String ClientEndpoint :=
  if sid ≠ nullUUID then
    if routingDataExists sid then
      .ok ⟨sid, true, true⟩
    else
      .error "Missing routing data in RemoteEndpoint"
  else
    .ok ⟨nullUUID, false, false⟩

/-- Result of an accepted client connection: the endpoint, the session id
it is tracked under in the peer registry, and that the agent was notified
of the connection. -/
structure ClientFilterResult where
  endpoint : ClientEndpoint
  trackedUnder : UUID
  notifiedConnected : Bool
deriving DecidableEq, Repr

/-- Model of the CLIENT registration connect filter
(src/cmd/node/router/NodeRouter.cc lines 256-314): refuse when a client
peer already exists for the session; when routing data exists, build the
endpoint on the registration's session id; when it does not (for example
the session has already shut down), accept the connection anyway on the
null session id so a shutdown status can still be sent back.  Either
accepted endpoint is tracked under the registration's session id and the
agent is notified that the client connected. -/
def clientConnectFilter (regSessionId : UUID) (existingClient : Bool)
    (routingDataExists : UUID → Bool) : Except String ClientFilterResult :=
  if existingClient then
    .error "refusing client connection because one already exists for the session"
  else if routingDataExists regSessionId then
    match mkClientEndpoint regSessionId routingDataExists with
    | .ok ep => .ok ⟨ep, regSessionId, true⟩
    | .error e => .error e
  else
    match mkClientEndpoint nullUUID routingDataExists with
    | .ok ep => .ok ⟨ep, regSessionId, true⟩
    | .error e => .error e

/- ----------------------------------------------------------------- -/
/-  Concrete fixtures used to exercise the theorems                   -/
/- ----------------------------------------------------------------- -/

/-- A peer registry whose client slot is occupied by endpoint 1. -/
def regWithClient : PeerRegistry := ⟨some 1, fun _ => [], []⟩

/-- Routing data for a non-entry node 2 of session 9 whose node map knows
node 3; the entry node is 5. -/
def rdW : RoutingData := ⟨9, 2, false, 5, fun n => n == 3 || n == 5⟩

/-- A registry with no client and no node peers, tracking computation 7. -/
def regW : RouterRegistry := ⟨fun _ => false, fun c => c == 7, fun _ => false⟩

/-- A destination list with a client address, a local-computation address
and a remote-node address, all in session 9. -/
def aToW : List Address := [⟨9, 0, 0⟩, ⟨9, 2, 7⟩, ⟨9, 3, 4⟩]

/-- An always-true oracle on ids. -/
def allOk : UUID → Bool := fun _ => true

/-- A current computation map holding computations 1 (A) and 2 (B). -/
def currentW : List (UUID × String) := [(1, "A"), (2, "B")]

/-- A new config holding computations 2 (B) and 3 (C). -/
def cfgW : List (UUID × String) := [(2, "B"), (3, "C")]

/-- A run signal with addresser-rule payload 4. -/
def runSigW : SignalData := ⟨"run", 4⟩

/-- A routing-data-exists oracle that always fails. -/
def noRouting : UUID → Bool := fun _ => false

/-- A ban list of one source at the default ban threshold. -/
def blW : BanList := ⟨5, 300, [("10.0.0.1", ⟨5, 40⟩)]⟩

/- ----------------------------------------------------------------- -/
/-  Helper lemmas on the session map                                  -/
/- ----------------------------------------------------------------- -/

theorem findSession_cons (k : UUID) (s : SessionState) (rest : SessionMap) (id : UUID) :
    findSession ((k, s) :: rest) id = if k = id then some s else findSession rest id := rfl

theorem findSession_none_iff (m : SessionMap) (id : UUID) :
    findSession m id = none ↔ ∀ p ∈ m, p.1 ≠ id := by
  induction m with
  | nil => simp [findSession]
  | cons p rest ih =>
    obtain ⟨k, s⟩ := p
    rw [findSession_cons]
    by_cases hk : k = id
    · subst hk
      simp
    · simp [hk, ih]

theorem findSession_append_self (m : SessionMap) (id : UUID) (st : SessionState)
    (h : findSession m id = none) :
    findSession (m ++ [(id, st)]) id = some st := by
  induction m with
  | nil => simp [findSession]
  | cons p rest ih =>
    obtain ⟨k, s⟩ := p
    rw [findSession_cons] at h
    rw [List.cons_append, findSession_cons]
    by_cases hk : k = id
    · rw [if_pos hk] at h
      exact absurd h (by simp)
    · rw [if_neg hk] at h
      rw [if_neg hk]
      exact ih h

theorem setSession_cons (k : UUID) (s : SessionState) (rest : SessionMap)
    (id : UUID) (st : SessionState) :
    setSession ((k, s) :: rest) id st =
      (if k = id then (k, st) else (k, s)) :: setSession rest id st := by
  simp only [setSession, List.map_cons]

theorem findSession_setSession (m : SessionMap) (id : UUID)
    (st st0 : SessionState) (h : findSession m id = some st0) :
    findSession (setSession m id st) id = some st := by
  induction m with
  | nil => simp [findSession] at h
  | cons p rest ih =>
    obtain ⟨k, s⟩ := p
    rw [findSession_cons] at h
    rw [setSession_cons]
    by_cases hk : k = id
    · rw [if_pos hk, findSession_cons, if_pos hk]
    · rw [if_neg hk] at h
      rw [if_neg hk, findSession_cons, if_neg hk]
      exact ih h

theorem eraseSession_append_self (m : SessionMap) (id : UUID) (st : SessionState)
    (h : findSession m id = none) :
    eraseSession (m ++ [(id, st)]) id = m := by
  rw [findSession_none_iff] at h
  induction m with
  | nil => simp [eraseSession]
  | cons p rest ih =>
    obtain ⟨k, s⟩ := p
    have hk : k ≠ id := h (k, s) (by simp)
    simp only [eraseSession, List.cons_append, List.filter_cons] at ih ⊢
    rw [if_pos (by simp [hk])]
    rw [ih (fun q hq => h q (by simp [hq]))]

theorem createSession_existing (m : SessionMap) (id : UUID) (st : SessionState)
    (acks : Bool) (h : findSession m id = some st) :
    createSession false acks m id =
      ⟨m, some ⟨"Session already exists", HTTP_RESOURCE_CONFLICT⟩, false⟩ := by
  simp [createSession, h]

/- ----------------------------------------------------------------- -/
/-  Claim C1                                                          -/
/- ----------------------------------------------------------------- -/

/-- Claim C1 counterexample: syncShutdown does not follow the conflict
discipline the claim states for it.  Called on a Defunct session it does
not throw a conflict error but proceeds to run the delete procedure, and
called on a Busy session it waits for the running operation (queuing the
caller) instead of throwing. -/
theorem c1_counterexample :
    syncShutdownState true SessionState.Defunct = Except.ok SessionState.Defunct
  ∧ syncShutdownState true SessionState.Busy = Except.ok SessionState.Defunct := by
  exact ⟨rfl, rfl⟩

/-- Claim C1 (amended): asyncUpdateConfig and asyncDelete throw a 409
conflict error immediately while the session is Busy or Defunct and,
with the shutdown flag clear, atomically move a Free session to Busy; the
operation thread sets Free on update completion (only when still Busy,
leaving Defunct untouched) and Defunct on delete completion, so Defunct is
terminal.  syncShutdown instead never throws a conflict: while Busy it
waits for the running operation, throwing a non-conflict timeout error
only when the wait exceeds the 30 s bound, and otherwise runs the delete
procedure even from the Defunct state. -/
theorem c1_session_state_machine :
    asyncUpdateConfigState false SessionState.Busy =
      Except.error ⟨"Session is busy and cannot be modified", HTTP_RESOURCE_CONFLICT⟩
  ∧ asyncUpdateConfigState false SessionState.Defunct =
      Except.error ⟨"Session is defunct and cannot be modified", HTTP_RESOURCE_CONFLICT⟩
  ∧ asyncDeleteState false SessionState.Busy =
      Except.error ⟨"Session is busy and cannot be deleted", HTTP_RESOURCE_CONFLICT⟩
  ∧ asyncDeleteState false SessionState.Defunct =
      Except.error ⟨"Session is defunct and cannot be deleted", HTTP_RESOURCE_CONFLICT⟩
  ∧ asyncUpdateConfigState false SessionState.Free = Except.ok SessionState.Busy
  ∧ asyncDeleteState false SessionState.Free = Except.ok SessionState.Busy
  ∧ updateProcFinish SessionState.Busy = SessionState.Free
  ∧ updateProcFinish SessionState.Defunct = SessionState.Defunct
  ∧ (∀ st : SessionState, deleteProcFinish st = SessionState.Defunct)
  ∧ (∀ oc : Bool, syncShutdownState oc SessionState.Defunct =
      Except.ok SessionState.Defunct)
  ∧ syncShutdownState false SessionState.Busy =
      Except.error ⟨"Session shutdown took too long", HTTP_INTERNAL_SERVER_ERROR⟩
  ∧ syncShutdownState true SessionState.Busy = Except.ok SessionState.Defunct := by
  refine ⟨rfl, rfl, rfl, rfl, rfl, rfl, rfl, rfl, fun st => rfl, fun oc => ?_, rfl, rfl⟩
  cases oc <;> rfl

/- ----------------------------------------------------------------- -/
/-  Claim C2                                                          -/
/- ----------------------------------------------------------------- -/

/-- Claim C2 counterexample: create of session 1 on an empty map succeeds
and, after the operation completes and the session is deleted, the map
still holds session 1 marked Defunct, so a second create with the same
definition is refused with the 409 Session-already-exists error rather
than succeeding. -/
theorem c2_counterexample :
    (createSession false true [] 1).error = none
  ∧ (createSession false true [] 1).map = [(1, SessionState.Busy)]
  ∧ updateProcFinish SessionState.Busy = SessionState.Free
  ∧ setSession [(1, SessionState.Busy)] 1 SessionState.Free = [(1, SessionState.Free)]
  ∧ (deleteSessionCompleted [(1, SessionState.Free)] 1).2 = none
  ∧ (deleteSessionCompleted [(1, SessionState.Free)] 1).1 = [(1, SessionState.Defunct)]
  ∧ (createSession false true [(1, SessionState.Defunct)] 1).error =
      some ⟨"Session already exists", HTTP_RESOURCE_CONFLICT⟩ := by
  exact ⟨rfl, rfl, rfl, rfl, rfl, rfl, rfl⟩

/-- Claim C2 (amended): for a fresh session id, create succeeds and delete
completes leaving the record in the session map marked Defunct, so a
second create with the same definition is refused with a 409 conflict
(Session already exists) and leaves the map unchanged: session ids are
not reusable after delete, because the Defunct record is kept
indefinitely. -/
theorem c2_defunct_ids_not_reusable (m : SessionMap) (id : UUID)
    (h : findSession m id = none) :
    (createSession false true m id).error = none
  ∧ (deleteSessionCompleted (setSession (createSession false true m id).map id
        (updateProcFinish SessionState.Busy)) id).2 = none
  ∧ findSession (deleteSessionCompleted (setSession (createSession false true m id).map id
        (updateProcFinish SessionState.Busy)) id).1 id = some SessionState.Defunct
  ∧ (createSession false true (deleteSessionCompleted
        (setSession (createSession false true m id).map id
          (updateProcFinish SessionState.Busy)) id).1 id).error =
      some ⟨"Session already exists", HTTP_RESOURCE_CONFLICT⟩
  ∧ (createSession false true (deleteSessionCompleted
        (setSession (createSession false true m id).map id
          (updateProcFinish SessionState.Busy)) id).1 id).map =
      (deleteSessionCompleted (setSession (createSession false true m id).map id
        (updateProcFinish SessionState.Busy)) id).1 := by
  have hcreate : createSession false true m id =
      ⟨setSession (insertSession m id SessionState.Free) id SessionState.Busy, none, true⟩ := by
    simp [createSession, h, asyncUpdateConfigState, SessionState]
  have h1 : findSession (insertSession m id SessionState.Free) id =
      some SessionState.Free :=
    findSession_append_self m id SessionState.Free h
  have h2 : findSession (createSession false true m id).map id = some SessionState.Busy := by
    rw [hcreate]
    exact findSession_setSession _ id _ _ h1
  have h3 : findSession (setSession (createSession false true m id).map id
      (updateProcFinish SessionState.Busy)) id = some SessionState.Free :=
    findSession_setSession _ id _ _ h2
  have hdel : deleteSessionCompleted (setSession (createSession false true m id).map id
      (updateProcFinish SessionState.Busy)) id =
      (setSession (setSession (createSession false true m id).map id
        (updateProcFinish SessionState.Busy)) id SessionState.Defunct, none) := by
    simp [deleteSessionCompleted, h3, asyncDeleteState, deleteProcFinish]
  have h4 : findSession (deleteSessionCompleted (setSession (createSession false true m id).map id
      (updateProcFinish SessionState.Busy)) id).1 id = some SessionState.Defunct := by
    rw [hdel]
    exact findSession_setSession _ id _ _ h3
  refine ⟨by rw [hcreate], by rw [hdel], h4, ?_, ?_⟩
  · rw [createSession_existing _ id SessionState.Defunct true h4]
  · rw [createSession_existing _ id SessionState.Defunct true h4]

/-- Claim C2 witness: the amended round trip at session id 1 on the empty
session map. -/
theorem c2_defunct_ids_not_reusable_witness :
    findSession [] 1 = none
  ∧ ((createSession false true [] 1).error = none
  ∧ (deleteSessionCompleted (setSession (createSession false true [] 1).map 1
        (updateProcFinish SessionState.Busy)) 1).2 = none
  ∧ findSession (deleteSessionCompleted (setSession (createSession false true [] 1).map 1
        (updateProcFinish SessionState.Busy)) 1).1 1 = some SessionState.Defunct
  ∧ (createSession false true (deleteSessionCompleted
        (setSession (createSession false true [] 1).map 1
          (updateProcFinish SessionState.Busy)) 1).1 1).error =
      some ⟨"Session already exists", HTTP_RESOURCE_CONFLICT⟩
  ∧ (createSession false true (deleteSessionCompleted
        (setSession (createSession false true [] 1).map 1
          (updateProcFinish SessionState.Busy)) 1).1 1).map =
      (deleteSessionCompleted (setSession (createSession false true [] 1).map 1
        (updateProcFinish SessionState.Busy)) 1).1) :=
  ⟨rfl, c2_defunct_ids_not_reusable [] 1 rfl⟩

/- ----------------------------------------------------------------- -/
/-  Claim C7                                                          -/
/- ----------------------------------------------------------------- -/

/-- Claim C7: createSession fails with 409 when the node is closed (map
untouched, nothing sent to the router) or when a session with the same id
already exists; otherwise it sends SessionRoutingData Initialize to the
router and blocks for the Acknowledge reply, bounded by
WAIT_FOR_ROUTER_HAS_ROUTING_MS = 10000 ms; when no acknowledgement
arrives it fails with 500, the partially created session is erased, and
the session map is exactly as before the call. -/
theorem c7_createSession_conflict_and_rollback (m : SessionMap) (id : UUID) :
    ((createSession true true m id).error =
        some ⟨"Node is closed : cannot accept new sessions", HTTP_RESOURCE_CONFLICT⟩
      ∧ (createSession true true m id).map = m
      ∧ (createSession true true m id).sentInit = false)
  ∧ (∀ st : SessionState, findSession m id = some st →
        createSession false true m id =
          ⟨m, some ⟨"Session already exists", HTTP_RESOURCE_CONFLICT⟩, false⟩)
  ∧ (findSession m id = none →
        createSession false false m id =
          ⟨m, some ⟨"Failed to initialize session with node router",
                    HTTP_INTERNAL_SERVER_ERROR⟩, true⟩)
  ∧ (findSession m id = none →
        (createSession false true m id).error = none
      ∧ (createSession false true m id).sentInit = true)
  ∧ WAIT_FOR_ROUTER_HAS_ROUTING_MS = 10000 := by
  refine ⟨⟨rfl, rfl, rfl⟩, fun st h => createSession_existing m id st true h,
          fun h => ?_, fun h => ?_, rfl⟩
  · have he := eraseSession_append_self m id SessionState.Free h
    simp only [createSession, h, Bool.false_eq_true, if_false, insertSession] at he ⊢
    simp [he]
  · simp [createSession, h, asyncUpdateConfigState]

/-- Claim C7 witness: createSession at fresh session id 1 on the empty
map, without and with the router acknowledgement. -/
theorem c7_witness :
    findSession [] 1 = none
  ∧ createSession false false [] 1 =
      ⟨[], some ⟨"Failed to initialize session with node router",
                 HTTP_INTERNAL_SERVER_ERROR⟩, true⟩
  ∧ ((createSession false true [] 1).error = none
      ∧ (createSession false true [] 1).sentInit = true) :=
  ⟨rfl, (c7_createSession_conflict_and_rollback [] 1).2.2.1 rfl,
   (c7_createSession_conflict_and_rollback [] 1).2.2.2.1 rfl⟩

/- ----------------------------------------------------------------- -/
/-  Claim C4                                                          -/
/- ----------------------------------------------------------------- -/

theorem queuePushAll_apply (qs : Nat → List Env) (ep : Nat) (msgs : List Env) (k : Nat) :
    queuePushAll qs ep msgs k = if k = ep then qs k ++ msgs else qs k := by
  induction msgs generalizing qs with
  | nil => by_cases hk : k = ep <;> simp [queuePushAll, hk]
  | cons e rest ih =>
    simp only [queuePushAll, List.foldl_cons] at ih ⊢
    rw [ih]
    by_cases hk : k = ep
    · subst hk
      simp [queuePush]
    · simp [queuePush, hk]

/-- Claim C4 counterexample: stash envelope 7 for the session, then track
client endpoint 1.  The envelope is pushed onto the client's send queue,
but the pending list still holds it afterwards: trackClient does not
drain mPendingEnvelopes. -/
theorem c4_counterexample :
    (trackClient (stashEnvelope emptyReg 7) 1).queues 1 = [7]
  ∧ (trackClient (stashEnvelope emptyReg 7) 1).pending = [7]
  ∧ (trackClient (stashEnvelope emptyReg 7) 1).pending ≠ [] := by
  refine ⟨rfl, rfl, by decide⟩

/-- Claim C4 (amended): trackClient, under the registry lock, records the
client and pushes a copy of every envelope stashed for the session onto
its send queue in order, leaving other queues alone, but the pending list
keeps the envelopes (they are only removed by clearStashedEnvelopes);
stashEnvelope under the same lock either queues to the tracked client or
appends to the pending list, so no envelope is lost. -/
theorem c4_track_client_copies_but_keeps_stash (st : PeerRegistry) (ep : Nat) :
    (trackClient st ep).queues ep = st.queues ep ++ st.pending
  ∧ (∀ k, k ≠ ep → (trackClient st ep).queues k = st.queues k)
  ∧ (trackClient st ep).pending = st.pending
  ∧ (trackClient st ep).client = some ep
  ∧ (∀ e : Env, st.client = none → (stashEnvelope st e).pending = st.pending ++ [e])
  ∧ (∀ (e : Env) (c : Nat), st.client = some c →
        (stashEnvelope st e).queues c = st.queues c ++ [e]
      ∧ (stashEnvelope st e).pending = st.pending) := by
  refine ⟨?_, ?_, rfl, rfl, ?_, ?_⟩
  · show queuePushAll st.queues ep st.pending ep = st.queues ep ++ st.pending
    rw [queuePushAll_apply]
    simp
  · intro k hk
    show queuePushAll st.queues ep st.pending k = st.queues k
    rw [queuePushAll_apply]
    simp [hk]
  · intro e h
    simp [stashEnvelope, h]
  · intro e c h
    refine ⟨?_, ?_⟩
    · simp [stashEnvelope, h, queuePush]
    · simp [stashEnvelope, h]

/-- Claim C4 witness: the amended behaviour at concrete registries, with
and without a tracked client. -/
theorem c4_witness :
    (trackClient regWithClient 1).queues 1 = regWithClient.queues 1 ++ regWithClient.pending
  ∧ ((stashEnvelope emptyReg 7).pending = emptyReg.pending ++ [7])
  ∧ (stashEnvelope regWithClient 7).queues 1 = regWithClient.queues 1 ++ [7] :=
  ⟨(c4_track_client_copies_but_keeps_stash regWithClient 1).1,
   (c4_track_client_copies_but_keeps_stash emptyReg 1).2.2.2.2.1 7 rfl,
   ((c4_track_client_copies_but_keeps_stash regWithClient 1).2.2.2.2.2 7 1 rfl).1⟩

/- ----------------------------------------------------------------- -/
/-  Claim C9                                                          -/
/- ----------------------------------------------------------------- -/

theorem signalSeq_update_all (sigs : List SignalData)
    (h : ∀ s ∈ sigs, s.status = "run") :
    signalSeq ProcessState.Spawned true sigs =
      (true, sigs.map (fun s => (⟨"update", s⟩ : ControlMsg))) := by
  induction sigs with
  | nil => rfl
  | cons s rest ih =>
    have hs : s.status = "run" := h s (by simp)
    have hrest := ih (fun t ht => h t (by simp [ht]))
    simp [signalSeq, compSignal, hs, hrest]

/-- Claim C9: a computation in the Spawned state answers the first run
signal with the go control message, setting the sent-go flag (initially
false), and answers every later run signal with an update control message
carrying that signal's data (including its addresser rules); a sequence
of identical run signals therefore yields go once followed by identical
updates. -/
theorem c9_first_run_go_then_update (sig : SignalData) (sigs : List SignalData)
    (h : sig.status = "run") (hs : ∀ s ∈ sigs, s.status = "run") :
    signalSeq ProcessState.Spawned false (sig :: sigs) =
      (true, (⟨"go", sig⟩ : ControlMsg) :: sigs.map (fun s => (⟨"update", s⟩ : ControlMsg)))
  ∧ compSignal ProcessState.Spawned false sig = (true, some ⟨"go", sig⟩)
  ∧ (∀ s2 : SignalData, s2.status = "run" →
        compSignal ProcessState.Spawned true s2 = (true, some ⟨"update", s2⟩))
  ∧ (∀ n : Nat, signalSeq ProcessState.Spawned false (sig :: List.replicate n sig) =
        (true, (⟨"go", sig⟩ : ControlMsg) ::
          List.replicate n (⟨"update", sig⟩ : ControlMsg))) := by
  have hgo : compSignal ProcessState.Spawned false sig = (true, some ⟨"go", sig⟩) := by
    simp [compSignal, h]
  have hmain : signalSeq ProcessState.Spawned false (sig :: sigs) =
      (true, (⟨"go", sig⟩ : ControlMsg) :: sigs.map (fun s => (⟨"update", s⟩ : ControlMsg))) := by
    simp [signalSeq, hgo, signalSeq_update_all sigs hs]
  refine ⟨hmain, hgo, ?_, ?_⟩
  · intro s2 h2
    simp [compSignal, h2]
  · intro n
    have hrep : ∀ s ∈ List.replicate n sig, s.status = "run" := by
      intro s hsm
      rw [List.eq_of_mem_replicate hsm]
      exact h
    have := signalSeq_update_all (List.replicate n sig) hrep
    simp [signalSeq, hgo, this, List.map_replicate]

/-- Claim C9 witness: two identical run signals to a Spawned computation
yield go then update. -/
theorem c9_witness :
    runSigW.status = "run"
  ∧ signalSeq ProcessState.Spawned false [runSigW, runSigW] =
      (true, [⟨"go", runSigW⟩, ⟨"update", runSigW⟩]) :=
  ⟨rfl, (c9_first_run_go_then_update runSigW [runSigW] rfl
    (by intro s hsm; simp at hsm; rw [hsm]; rfl)).1⟩

/- ----------------------------------------------------------------- -/
/-  Claim C10                                                         -/
/- ----------------------------------------------------------------- -/

/-- Claim C10: a CLIENT registration for a session id with no routing data
in the router is not refused: the filter accepts it as an endpoint carrying
the null session id (so a shutdown status can still be sent back), tracked
in the registry under the registration's session id, and the endpoint has
no routing data and never starts a receive thread, so its incoming
messages are ignored rather than routed. -/
theorem c10_client_unknown_session (sid : UUID) (rde : UUID → Bool)
    (_hsid : sid ≠ nullUUID) (hnord : rde sid = false) :
    clientConnectFilter sid false rde =
      .ok ⟨⟨nullUUID, false, false⟩, sid, true⟩
  ∧ mkClientEndpoint nullUUID rde = .ok ⟨nullUUID, false, false⟩ := by
  constructor
  · simp [clientConnectFilter, hnord, mkClientEndpoint]
  · simp [mkClientEndpoint]

/-- Claim C10 witness: session id 1 with no routing data anywhere is
accepted temporarily on the null session id. -/
theorem c10_witness :
    ((1 : UUID) ≠ nullUUID ∧ noRouting 1 = false)
  ∧ (clientConnectFilter 1 false noRouting =
        .ok ⟨⟨nullUUID, false, false⟩, 1, true⟩
      ∧ mkClientEndpoint nullUUID noRouting = .ok ⟨nullUUID, false, false⟩) :=
  ⟨⟨by decide, rfl⟩, c10_client_unknown_session 1 noRouting (by decide) rfl⟩

/- ----------------------------------------------------------------- -/
/-  Claim C3                                                          -/
/- ----------------------------------------------------------------- -/

/-- Claim C3: the node connect filter keeps at most one record per peer
and enforces the tie-break.  An inbound NODE registration from a lesser
node id with no existing record and known endpoint data is refused and a
reciprocal outbound endpoint is tracked; with an existing record it is
refused and the record is kept; an inbound registration from a greater
node id is accepted, and when a record already exists the new socket is
swapped into it.  Consequently, whenever the prior record's live socket
was dialed by the greater node, so is the surviving record's, and every
endpoint created by an outbound dial also satisfies this. -/
theorem c3_node_tiebreak (localId peerId : UUID) (known : Bool) (r : Option NodeRecord)
    (hne : peerId ≠ localId)
    (hgood : ∀ rec0 : NodeRecord, r = some rec0 →
        socketFromGreater localId peerId rec0.socket = true) :
    (r = none → peerId < localId → known = true →
        nodeConnectFilter localId peerId known r =
          (some (createNodeEndpoint localId peerId), NodeFilterAction.refusedReciprocal)
      ∧ (createNodeEndpoint localId peerId).socket = some ConnInitiator.localNode)
  ∧ (∀ rec0 : NodeRecord, r = some rec0 → peerId < localId →
        nodeConnectFilter localId peerId known r =
          (some rec0, NodeFilterAction.refusedKeepExisting))
  ∧ (r = none → localId < peerId →
        nodeConnectFilter localId peerId known r =
          (some ⟨some ConnInitiator.remoteNode⟩, NodeFilterAction.acceptedNew))
  ∧ (∀ rec0 : NodeRecord, r = some rec0 → localId < peerId →
        nodeConnectFilter localId peerId known r =
          (some ⟨some ConnInitiator.remoteNode⟩, NodeFilterAction.swapped))
  ∧ (∀ rec1 : NodeRecord, (nodeConnectFilter localId peerId known r).1 = some rec1 →
        socketFromGreater localId peerId rec1.socket = true)
  ∧ socketFromGreater localId peerId (createNodeEndpoint localId peerId).socket = true := by
  have hcreate : socketFromGreater localId peerId (createNodeEndpoint localId peerId).socket
      = true := by
    by_cases hlt : peerId < localId
    · simp [createNodeEndpoint, hlt, socketFromGreater]
    · simp [createNodeEndpoint, hlt, socketFromGreater]
  refine ⟨?_, ?_, ?_, ?_, ?_, hcreate⟩
  · intro h1 h2 h3
    subst h1
    subst h3
    refine ⟨?_, ?_⟩
    · simp [nodeConnectFilter, h2]
    · simp [createNodeEndpoint, h2]
  · intro rec0 hr h2
    subst hr
    simp [nodeConnectFilter, h2]
  · intro h1 h2
    subst h1
    have hlt : ¬ peerId < localId := Nat.lt_asymm h2
    simp [nodeConnectFilter, hlt]
  · intro rec0 hr h2
    subst hr
    have hlt : ¬ peerId < localId := Nat.lt_asymm h2
    simp [nodeConnectFilter, hlt]
  · intro rec1 hres
    cases r with
    | none =>
      by_cases hlt : peerId < localId
      · by_cases hk : known = true
        · subst hk
          simp [nodeConnectFilter, hlt] at hres
          rw [← hres]
          exact hcreate
        · have hk2 : known = false := by
            cases known
            · rfl
            · exact absurd rfl hk
          subst hk2
          simp [nodeConnectFilter, hlt] at hres
      · have hgt : localId < peerId := lt_of_le_of_ne (le_of_not_lt hlt) (Ne.symm hne)
        simp [nodeConnectFilter, hlt] at hres
        rw [← hres]
        simp [socketFromGreater, hgt]
    | some rec0 =>
      have hg := hgood rec0 rfl
      by_cases hlt : peerId < localId
      · simp [nodeConnectFilter, hlt] at hres
        rw [← hres]
        exact hg
      · have hgt : localId < peerId := lt_of_le_of_ne (le_of_not_lt hlt) (Ne.symm hne)
        simp [nodeConnectFilter, hlt] at hres
        rw [← hres]
        simp [socketFromGreater, hgt]

/-- Claim C3 witness: node 2 receives an inbound registration from lesser
node 1 with no existing record and known endpoint data; the inbound is
refused, a reciprocal outbound record dialed by node 2 is tracked, and
its live socket comes from the greater id. -/
theorem c3_witness :
    ((1 : UUID) ≠ 2 ∧ (∀ rec0 : NodeRecord, (none : Option NodeRecord) = some rec0 →
        socketFromGreater 2 1 rec0.socket = true))
  ∧ (nodeConnectFilter 2 1 true none =
        (some (createNodeEndpoint 2 1), NodeFilterAction.refusedReciprocal)
      ∧ (createNodeEndpoint 2 1).socket = some ConnInitiator.localNode) :=
  ⟨⟨by decide, fun rec0 h => by exact absurd h (by simp)⟩,
   (c3_node_tiebreak 2 1 true none (by decide)
      (fun rec0 h => by exact absurd h (by simp))).1 rfl (by decide) rfl⟩

/- ----------------------------------------------------------------- -/
/-  Claim C5                                                          -/
/- ----------------------------------------------------------------- -/

theorem lookupBan_cons (k : String) (e : BanEntry) (rest : List (String × BanEntry))
    (src : String) :
    lookupBan ((k, e) :: rest) src = if k = src then some e else lookupBan rest src := rfl

theorem lookupBan_erase_self (m : List (String × BanEntry)) (src : String) :
    lookupBan (eraseBan m src) src = none := by
  induction m with
  | nil => rfl
  | cons p rest ih =>
    obtain ⟨k, e⟩ := p
    simp only [eraseBan, List.filter_cons] at ih ⊢
    by_cases hk : k = src
    · simp [hk]
      simpa [eraseBan] using ih
    · rw [if_pos (by simp [hk])]
      rw [lookupBan_cons, if_neg hk]
      exact ih

theorem lookupBan_append_self (m : List (String × BanEntry)) (src : String)
    (e : BanEntry) (h : lookupBan m src = none) :
    lookupBan (m ++ [(src, e)]) src = some e := by
  induction m with
  | nil => simp [lookupBan]
  | cons p rest ih =>
    obtain ⟨k, e2⟩ := p
    rw [lookupBan_cons] at h
    rw [List.cons_append, lookupBan_cons]
    by_cases hk : k = src
    · rw [if_pos hk] at h
      exact absurd h (by simp)
    · rw [if_neg hk] at h
      rw [if_neg hk]
      exact ih h

/-- Claim C5: a source whose ban list entry has reached the ban threshold
and has not expired is answered 429 before dispatch, regardless of the
endpoint requested; a source whose entry has expired is handled normally,
an unknown endpoint giving 404 again with the count restarted at 1; and
the concrete scenario with the default thresholds (5 within 300 s): five
unknown GETs from 10.0.0.1 at times 0..40 each give 404, the sixth at
time 50 gives 429, and a seventh after more than 300 s of silence gives
404 with the entry restarted at count 1. -/
theorem c5_ban_list_behavior :
    (∀ (bl : BanList) (now : Nat) (src : String) (known : Bool) (e : BanEntry),
        lookupBan bl.map src = some e →
        banExpired bl now e.timeStamp = false →
        bl.countToBan ≤ e.count →
        (handleGet bl now src known).1 = 429)
  ∧ (∀ (bl : BanList) (now : Nat) (src : String) (e : BanEntry),
        lookupBan bl.map src = some e →
        banExpired bl now e.timeStamp = true →
        (handleGet bl now src false).1 = 404
        ∧ lookupBan (handleGet bl now src false).2.map src = some ⟨1, now⟩)
  ∧ runGetRequests defaultBanList "10.0.0.1"
      [(0, false), (10, false), (20, false), (30, false), (40, false),
       (50, false), (351, false)] =
      ([404, 404, 404, 404, 404, 429, 404],
       ⟨5, 300, [("10.0.0.1", ⟨1, 351⟩)]⟩) := by
  refine ⟨?_, ?_, by decide⟩
  · intro bl now src known e hl hx hc
    simp only [handleGet, isBanned, hl, hx, Bool.false_eq_true, if_false]
    by_cases hcnt : e.count = bl.countToBan
    · have h1 : bl.countToBan ≤ e.count + 1 := Nat.le_succ_of_le hc
      simp [hcnt, h1]
    · simp [hcnt, hc]
  · intro bl now src e hl hx
    have he : lookupBan (eraseBan bl.map src) src = none := lookupBan_erase_self bl.map src
    constructor
    · simp [handleGet, isBanned, hl, hx]
    · simp [handleGet, isBanned, hl, hx, trackBan, he,
            lookupBan_append_self _ src _ he]

/-- Claim C5 witness: the source 10.0.0.1 at the ban threshold is refused
with 429 on its next request. -/
theorem c5_witness :
    (lookupBan blW.map "10.0.0.1" = some ⟨5, 40⟩
      ∧ banExpired blW 50 40 = false ∧ blW.countToBan ≤ 5)
  ∧ (handleGet blW 50 "10.0.0.1" false).1 = 429 :=
  ⟨⟨by decide, by decide, by decide⟩,
   c5_ban_list_behavior.1 blW 50 "10.0.0.1" false ⟨5, 40⟩ (by decide) (by decide)
     (by decide)⟩

/- ----------------------------------------------------------------- -/
/-  Claim C8                                                          -/
/- ----------------------------------------------------------------- -/

theorem waitPhase_all_ok (waitOk : UUID → Bool) (l : List UUID)
    (h : ∀ c ∈ l, waitOk c = true) :
    waitPhase waitOk l = (l.map CompEffect.waitedFor, true) := by
  induction l with
  | nil => rfl
  | cons c rest ih =>
    have hc : waitOk c = true := h c (by simp)
    simp [waitPhase, hc, ih (fun d hd => h d (by simp [hd]))]

theorem spawnPhase_all_ok (spawnOk : UUID → Bool) (l : List (UUID × String))
    (h : ∀ p ∈ l, spawnOk p.1 = true) :
    spawnPhase spawnOk l = (l.map (fun p => CompEffect.spawned p.1), l, true) := by
  induction l with
  | nil => rfl
  | cons p rest ih =>
    have hp : spawnOk p.1 = true := h p (by simp)
    simp [spawnPhase, hp, ih (fun q hq => h q (by simp [hq]))]

theorem containsKey_iff (l : List (UUID × String)) (k : UUID) :
    containsKey l k = true ↔ ∃ p ∈ l, p.1 = k := by
  simp [containsKey, List.any_eq_true]

theorem mem_delta_defunct (current cfg : List (UUID × String)) (c : UUID) :
    c ∈ (getConfigDelta current cfg).1 ↔
      containsKey current c = true ∧ containsKey cfg c = false := by
  constructor
  · intro hc
    simp only [getConfigDelta, List.mem_map] at hc
    obtain ⟨p, hp, hpc⟩ := hc
    rw [List.mem_filter] at hp
    obtain ⟨hpc2, hflt⟩ := hp
    subst hpc
    constructor
    · rw [containsKey_iff]
      exact ⟨p, hpc2, rfl⟩
    · revert hflt
      cases containsKey cfg p.1 <;> simp
  · rintro ⟨h1, h2⟩
    rw [containsKey_iff] at h1
    obtain ⟨p, hp, hpk⟩ := h1
    simp only [getConfigDelta, List.mem_map]
    refine ⟨p, ?_, hpk⟩
    rw [List.mem_filter]
    refine ⟨hp, ?_⟩
    rw [hpk, h2]
    rfl

theorem mem_delta_new (current cfg : List (UUID × String)) (p : UUID × String) :
    p ∈ (getConfigDelta current cfg).2 ↔
      p ∈ cfg ∧ containsKey current p.1 = false := by
  simp only [getConfigDelta, List.mem_filter]
  constructor
  · rintro ⟨h1, h2⟩
    refine ⟨h1, ?_⟩
    revert h2
    cases containsKey current p.1 <;> simp
  · rintro ⟨h1, h2⟩
    refine ⟨h1, ?_⟩
    rw [h2]
    rfl

/-- Claim C8: a modify acts only on the delta between the current and new
computation sets.  With all waits and spawns succeeding: the run reports
no error; its effects are exactly the shutdowns of the removed
computations, then the waits for all of them, then (only afterwards) the
spawns of the added computations; removed means in the current set but
not the config, added means in the config but not the current set; a
computation in both sets receives no shutdown, wait or spawn effect at
all and remains in the resulting computation map. -/
theorem c8_modify_delta (current cfg : List (UUID × String)) (waitOk spawnOk : UUID → Bool)
    (hw : ∀ c ∈ (getConfigDelta current cfg).1, waitOk c = true)
    (hs : ∀ p ∈ (getConfigDelta current cfg).2, spawnOk p.1 = true) :
    (applyNewConfig current cfg waitOk spawnOk).error = none
  ∧ (applyNewConfig current cfg waitOk spawnOk).effects =
      (getConfigDelta current cfg).1.map CompEffect.shutdown
      ++ (getConfigDelta current cfg).1.map CompEffect.waitedFor
      ++ (getConfigDelta current cfg).2.map (fun p => CompEffect.spawned p.1)
  ∧ (applyNewConfig current cfg waitOk spawnOk).comps =
      current ++ (getConfigDelta current cfg).2
  ∧ (∀ c : UUID, c ∈ (getConfigDelta current cfg).1 ↔
      containsKey current c = true ∧ containsKey cfg c = false)
  ∧ (∀ p : UUID × String, p ∈ (getConfigDelta current cfg).2 ↔
      p ∈ cfg ∧ containsKey current p.1 = false)
  ∧ (∀ c : UUID, containsKey current c = true → containsKey cfg c = true →
      (∀ fx ∈ (applyNewConfig current cfg waitOk spawnOk).effects,
          fx ≠ CompEffect.shutdown c ∧ fx ≠ CompEffect.waitedFor c
        ∧ fx ≠ CompEffect.spawned c)
      ∧ containsKey (applyNewConfig current cfg waitOk spawnOk).comps c = true) := by
  have hW := waitPhase_all_ok waitOk (getConfigDelta current cfg).1 hw
  have hS := spawnPhase_all_ok spawnOk (getConfigDelta current cfg).2 hs
  have happ : applyNewConfig current cfg waitOk spawnOk =
      ⟨(getConfigDelta current cfg).1.map CompEffect.shutdown
        ++ (getConfigDelta current cfg).1.map CompEffect.waitedFor
        ++ (getConfigDelta current cfg).2.map (fun p => CompEffect.spawned p.1),
       current ++ (getConfigDelta current cfg).2, none⟩ := by
    simp [applyNewConfig, hW, hS]
  refine ⟨by rw [happ], by rw [happ], by rw [happ],
          fun c => mem_delta_defunct current cfg c,
          fun p => mem_delta_new current cfg p, ?_⟩
  intro c h1 h2
  constructor
  · intro fx hfx
    rw [happ] at hfx
    simp only [List.mem_append, List.mem_map] at hfx
    refine ⟨?_, ?_, ?_⟩
    · intro hfxe
      rcases hfx with (⟨d, hd, hde⟩ | ⟨d, hd, hde⟩) | ⟨p, hp, hpe⟩
      · rw [hfxe] at hde
        have hdc : d = c := by
          exact CompEffect.shutdown.inj hde
        rw [hdc] at hd
        have := (mem_delta_defunct current cfg c).1 hd
        rw [h2] at this
        exact absurd this.2 (by simp)
      · rw [hfxe] at hde
        exact absurd hde (by simp)
      · rw [hfxe] at hpe
        exact absurd hpe (by simp)
    · intro hfxe
      rcases hfx with (⟨d, hd, hde⟩ | ⟨d, hd, hde⟩) | ⟨p, hp, hpe⟩
      · rw [hfxe] at hde
        exact absurd hde (by simp)
      · rw [hfxe] at hde
        have hdc : d = c := CompEffect.waitedFor.inj hde
        rw [hdc] at hd
        have := (mem_delta_defunct current cfg c).1 hd
        rw [h2] at this
        exact absurd this.2 (by simp)
      · rw [hfxe] at hpe
        exact absurd hpe (by simp)
    · intro hfxe
      rcases hfx with (⟨d, hd, hde⟩ | ⟨d, hd, hde⟩) | ⟨p, hp, hpe⟩
      · rw [hfxe] at hde
        exact absurd hde (by simp)
      · rw [hfxe] at hde
        exact absurd hde (by simp)
      · rw [hfxe] at hpe
        have hpc : p.1 = c := CompEffect.spawned.inj hpe
        have := (mem_delta_new current cfg p).1 hp
        rw [hpc, h1] at this
        exact absurd this.2 (by simp)
  · rw [happ]
    show containsKey (current ++ (getConfigDelta current cfg).2) c = true
    rw [containsKey_iff]
    rw [containsKey_iff] at h1
    obtain ⟨p, hp, hpk⟩ := h1
    exact ⟨p, by simp [hp], hpk⟩

/-- Claim C8 witness: modifying from computations 1 (A) and 2 (B) to 2 (B)
and 3 (C) shuts down and waits for 1, then spawns 3, and leaves 2
untouched. -/
theorem c8_witness :
    (applyNewConfig currentW cfgW allOk allOk).error = none
  ∧ (applyNewConfig currentW cfgW allOk allOk).effects =
      [CompEffect.shutdown 1, CompEffect.waitedFor 1, CompEffect.spawned 3] :=
  ⟨(c8_modify_delta currentW cfgW allOk allOk
      (fun _ _ => rfl) (fun _ _ => rfl)).1,
   (c8_modify_delta currentW cfgW allOk allOk
      (fun _ _ => rfl) (fun _ _ => rfl)).2.1⟩

/- ----------------------------------------------------------------- -/
/-  Claim C6: grouping and parsing lemmas                             -/
/- ----------------------------------------------------------------- -/

theorem groupGet_addToGroup_self (g : AddrGroups) (k : UUID) (a : Address) :
    groupGet (addToGroup g k a) k = groupGet g k ++ [a] := by
  induction g with
  | nil => simp [addToGroup, groupGet]
  | cons q rest ih =>
    obtain ⟨k2, l⟩ := q
    by_cases hk : k2 = k
    · subst hk
      simp [addToGroup, groupGet]
    · simp [addToGroup, groupGet, hk, ih]

theorem groupGet_addToGroup_other (g : AddrGroups) (k k2 : UUID) (a : Address)
    (hne : k2 ≠ k) :
    groupGet (addToGroup g k a) k2 = groupGet g k2 := by
  have hne2 : k ≠ k2 := Ne.symm hne
  induction g with
  | nil => simp [addToGroup, groupGet, hne2]
  | cons q rest ih =>
    obtain ⟨k3, l⟩ := q
    by_cases hk : k3 = k
    · subst hk
      simp [addToGroup, groupGet, hne2]
    · by_cases hk2 : k3 = k2
      · subst hk2
        simp [addToGroup, groupGet, hk]
      · simp [addToGroup, groupGet, hk, hk2, ih]

theorem groupGet_mem (g : AddrGroups) (n : UUID) (hne : groupGet g n ≠ []) :
    (n, groupGet g n) ∈ g := by
  induction g with
  | nil => simp [groupGet] at hne
  | cons q rest ih =>
    obtain ⟨k, l⟩ := q
    by_cases hk : k = n
    · subst hk
      simp [groupGet]
    · simp only [groupGet, hk, if_false] at hne ⊢
      exact List.mem_cons_of_mem _ (ih hne)

theorem addToGroup_keys (g : AddrGroups) (k : UUID) (a : Address)
    (q : UUID × List Address) (hq : q ∈ addToGroup g k a) :
    q.1 ∈ g.map (fun p => p.1) ∨ q.1 = k := by
  induction g with
  | nil =>
    right
    simp only [addToGroup] at hq
    rcases List.mem_singleton.mp hq with h
    simp [h]
  | cons p rest ih =>
    obtain ⟨k2, l⟩ := p
    by_cases hk : k2 = k
    · subst hk
      simp only [addToGroup, if_pos rfl] at hq
      left
      rcases List.mem_cons.mp hq with h1 | h1
      · simp [h1]
      · simp only [List.map_cons]
        exact List.mem_cons_of_mem _ (List.mem_map_of_mem _ h1)
    · simp only [addToGroup, hk, if_false] at hq
      rcases List.mem_cons.mp hq with h1 | h1
      · left
        simp [h1]
      · rcases ih h1 with h2 | h2
        · left
          simp only [List.map_cons]
          exact List.mem_cons_of_mem _ h2
        · right
          exact h2

theorem parseDestLoop_cons_null (L : UUID) (a : Address) (rest : List Address)
    (ipc nodes : AddrGroups) (tc : Bool) (h0 : a.node = nullUUID) :
    parseDestLoop L (a :: rest) ipc nodes tc = parseDestLoop L rest ipc nodes true := by
  simp only [parseDestLoop]
  rw [if_pos h0]

theorem parseDestLoop_cons_ipc (L : UUID) (a : Address) (rest : List Address)
    (ipc nodes : AddrGroups) (tc : Bool) (h0 : ¬a.node = nullUUID)
    (hl : a.node = L) (hc : a.computation ≠ nullUUID) :
    parseDestLoop L (a :: rest) ipc nodes tc =
      parseDestLoop L rest (addToGroup ipc a.computation a) nodes tc := by
  simp only [parseDestLoop]
  rw [if_neg h0, if_pos hl, if_pos hc]

theorem parseDestLoop_cons_skip (L : UUID) (a : Address) (rest : List Address)
    (ipc nodes : AddrGroups) (tc : Bool) (h0 : ¬a.node = nullUUID)
    (hl : a.node = L) (hc : ¬a.computation ≠ nullUUID) :
    parseDestLoop L (a :: rest) ipc nodes tc =
      parseDestLoop L rest ipc nodes tc := by
  simp only [parseDestLoop]
  rw [if_neg h0, if_pos hl, if_neg hc]

theorem parseDestLoop_cons_node (L : UUID) (a : Address) (rest : List Address)
    (ipc nodes : AddrGroups) (tc : Bool) (h0 : ¬a.node = nullUUID)
    (hl : ¬a.node = L) :
    parseDestLoop L (a :: rest) ipc nodes tc =
      parseDestLoop L rest ipc (addToGroup nodes a.node a) tc := by
  simp only [parseDestLoop]
  rw [if_neg h0, if_neg hl]

theorem parseDestLoop_toClient (L : UUID) (aTo : List Address)
    (ipc nodes : AddrGroups) (tc : Bool) :
    (parseDestLoop L aTo ipc nodes tc).2.2 =
      (tc || aTo.any (fun a => decide (a.node = nullUUID))) := by
  induction aTo generalizing ipc nodes tc with
  | nil => simp [parseDestLoop]
  | cons a rest ih =>
    by_cases h0 : a.node = nullUUID
    · rw [parseDestLoop_cons_null L a rest ipc nodes tc h0, ih]
      simp [h0]
    · by_cases hl : a.node = L
      · by_cases hc : a.computation ≠ nullUUID
        · rw [parseDestLoop_cons_ipc L a rest ipc nodes tc h0 hl hc, ih]
          simp [h0]
        · rw [parseDestLoop_cons_skip L a rest ipc nodes tc h0 hl hc, ih]
          simp [h0]
      · rw [parseDestLoop_cons_node L a rest ipc nodes tc h0 hl, ih]
        simp [h0]

theorem parseDestLoop_nodeGroup (L : UUID) (aTo : List Address)
    (ipc nodes : AddrGroups) (tc : Bool) (n : UUID)
    (hn0 : n ≠ nullUUID) (hnl : n ≠ L) :
    groupGet (parseDestLoop L aTo ipc nodes tc).2.1 n =
      groupGet nodes n ++ aTo.filter (fun a => decide (a.node = n)) := by
  induction aTo generalizing ipc nodes tc with
  | nil => simp [parseDestLoop]
  | cons a rest ih =>
    by_cases h0 : a.node = nullUUID
    · have hne : ¬(a.node = n) := by
        rw [h0]
        exact Ne.symm hn0
      rw [parseDestLoop_cons_null L a rest ipc nodes tc h0, ih]
      simp [List.filter_cons, hne]
    · by_cases hl : a.node = L
      · have hne : ¬(a.node = n) := by
          rw [hl]
          exact Ne.symm hnl
        by_cases hc : a.computation ≠ nullUUID
        · rw [parseDestLoop_cons_ipc L a rest ipc nodes tc h0 hl hc, ih]
          simp [List.filter_cons, hne]
        · rw [parseDestLoop_cons_skip L a rest ipc nodes tc h0 hl hc, ih]
          simp [List.filter_cons, hne]
      · rw [parseDestLoop_cons_node L a rest ipc nodes tc h0 hl, ih]
        by_cases han : a.node = n
        · rw [han, groupGet_addToGroup_self]
          simp [List.filter_cons, han, List.append_assoc]
        · rw [groupGet_addToGroup_other _ _ _ _ (Ne.symm han)]
          simp [List.filter_cons, han]

theorem parseDestLoop_ipcMono (L : UUID) (aTo : List Address)
    (ipc nodes : AddrGroups) (tc : Bool) (b : Address) (c : UUID)
    (hb : b ∈ groupGet ipc c) :
    b ∈ groupGet (parseDestLoop L aTo ipc nodes tc).1 c := by
  induction aTo generalizing ipc nodes tc with
  | nil => simpa [parseDestLoop] using hb
  | cons a rest ih =>
    by_cases h0 : a.node = nullUUID
    · rw [parseDestLoop_cons_null L a rest ipc nodes tc h0]
      exact ih _ _ _ hb
    · by_cases hl : a.node = L
      · by_cases hc : a.computation ≠ nullUUID
        · rw [parseDestLoop_cons_ipc L a rest ipc nodes tc h0 hl hc]
          refine ih _ _ _ ?_
          by_cases hcc : a.computation = c
          · rw [hcc, groupGet_addToGroup_self]
            exact List.mem_append_left _ hb
          · rw [groupGet_addToGroup_other _ _ _ _ (Ne.symm hcc)]
            exact hb
        · rw [parseDestLoop_cons_skip L a rest ipc nodes tc h0 hl hc]
          exact ih _ _ _ hb
      · rw [parseDestLoop_cons_node L a rest ipc nodes tc h0 hl]
        exact ih _ _ _ hb

theorem parseDestLoop_ipcMem (L : UUID) (aTo : List Address)
    (ipc nodes : AddrGroups) (tc : Bool) (a : Address)
    (ha : a ∈ aTo) (hl : a.node = L) (h0 : a.node ≠ nullUUID)
    (hc : a.computation ≠ nullUUID) :
    a ∈ groupGet (parseDestLoop L aTo ipc nodes tc).1 a.computation := by
  induction aTo generalizing ipc nodes tc with
  | nil => simp at ha
  | cons b rest ih =>
    rcases List.mem_cons.mp ha with hab | ha2
    · subst hab
      rw [parseDestLoop_cons_ipc L a rest ipc nodes tc h0 hl hc]
      refine parseDestLoop_ipcMono _ _ _ _ _ _ _ ?_
      rw [groupGet_addToGroup_self]
      exact List.mem_append_right _ (by simp)
    · by_cases hb0 : b.node = nullUUID
      · rw [parseDestLoop_cons_null L b rest ipc nodes tc hb0]
        exact ih _ _ _ ha2
      · by_cases hbl : b.node = L
        · by_cases hbc : b.computation ≠ nullUUID
          · rw [parseDestLoop_cons_ipc L b rest ipc nodes tc hb0 hbl hbc]
            exact ih _ _ _ ha2
          · rw [parseDestLoop_cons_skip L b rest ipc nodes tc hb0 hbl hbc]
            exact ih _ _ _ ha2
        · rw [parseDestLoop_cons_node L b rest ipc nodes tc hb0 hbl]
          exact ih _ _ _ ha2

theorem parseDestLoop_nodeKeys (L : UUID) (aTo : List Address)
    (ipc nodes : AddrGroups) (tc : Bool) (p : UUID × List Address)
    (hp : p ∈ (parseDestLoop L aTo ipc nodes tc).2.1) :
    p.1 ∈ nodes.map (fun q => q.1)
    ∨ ∃ a ∈ aTo, a.node = p.1 ∧ p.1 ≠ nullUUID ∧ p.1 ≠ L := by
  induction aTo generalizing ipc nodes tc with
  | nil =>
    left
    simp only [parseDestLoop] at hp
    exact List.mem_map_of_mem _ hp
  | cons a rest ih =>
    by_cases h0 : a.node = nullUUID
    · rw [parseDestLoop_cons_null L a rest ipc nodes tc h0] at hp
      rcases ih _ _ _ hp with h1 | ⟨b, hb, h2⟩
      · left
        exact h1
      · right
        exact ⟨b, by simp [hb], h2⟩
    · by_cases hl : a.node = L
      · by_cases hc : a.computation ≠ nullUUID
        · rw [parseDestLoop_cons_ipc L a rest ipc nodes tc h0 hl hc] at hp
          rcases ih _ _ _ hp with h1 | ⟨b, hb, h2⟩
          · left
            exact h1
          · right
            exact ⟨b, by simp [hb], h2⟩
        · rw [parseDestLoop_cons_skip L a rest ipc nodes tc h0 hl hc] at hp
          rcases ih _ _ _ hp with h1 | ⟨b, hb, h2⟩
          · left
            exact h1
          · right
            exact ⟨b, by simp [hb], h2⟩
      · rw [parseDestLoop_cons_node L a rest ipc nodes tc h0 hl] at hp
        rcases ih _ _ _ hp with h1 | ⟨b, hb, h2⟩
        · rcases List.mem_map.mp h1 with ⟨q, hq, hqk⟩
          rcases addToGroup_keys nodes a.node a q hq with h2 | h2
          · left
            rw [← hqk]
            exact h2
          · right
            refine ⟨a, by simp, h2 ▸ hqk, ?_, ?_⟩
            · rw [← hqk, h2]
              exact h0
            · rw [← hqk, h2]
              exact hl
        · right
          exact ⟨b, by simp [hb], h2⟩

theorem nodeGroupLoop_total (rd : RoutingData) (groups : AddrGroups)
    (ds : List Delivery) (reg : RouterRegistry)
    (h : ∀ p ∈ groups, reg.nodePeer p.1 = true ∨ rd.nodeInfoKnown p.1 = true) :
    ∃ ds2 reg2, nodeGroupLoop rd groups ds reg = .ok (ds2, reg2)
      ∧ (∀ d ∈ ds, d ∈ ds2)
      ∧ (∀ p ∈ groups, ∃ lazy, Delivery.toNode p.1 p.2 lazy ∈ ds2
            ∧ (lazy = true → rd.nodeInfoKnown p.1 = true)) := by
  induction groups generalizing ds reg with
  | nil =>
    exact ⟨ds, reg, rfl, fun d hd => hd, fun p hp => absurd hp (by simp)⟩
  | cons q rest ih =>
    obtain ⟨n, l⟩ := q
    by_cases hn : reg.nodePeer n = true
    · have hrest : ∀ p ∈ rest, reg.nodePeer p.1 = true ∨ rd.nodeInfoKnown p.1 = true :=
        fun p hp => h p (by simp [hp])
      obtain ⟨ds2, reg2, heq, hpre, hall⟩ :=
        ih (ds ++ [Delivery.toNode n l false]) reg hrest
      refine ⟨ds2, reg2, ?_, ?_, ?_⟩
      · simp only [nodeGroupLoop, hn, if_pos]
        exact heq
      · intro d hd
        exact hpre d (by simp [hd])
      · intro p hp
        rcases List.mem_cons.mp hp with hpq | hp2
        · subst hpq
          exact ⟨false, hpre _ (by simp), by simp⟩
        · exact hall p hp2
    · have hkn : rd.nodeInfoKnown n = true := by
        rcases h (n, l) (by simp) with hc | hc
        · exact absurd hc hn
        · exact hc
      have hrest : ∀ p ∈ rest,
          (if p.1 = n then true else reg.nodePeer p.1) = true
          ∨ rd.nodeInfoKnown p.1 = true := by
        intro p hp
        rcases h p (by simp [hp]) with hc | hc
        · left
          by_cases hpn : p.1 = n <;> simp [hpn, hc]
        · right
          exact hc
      obtain ⟨ds2, reg2, heq, hpre, hall⟩ :=
        ih (ds ++ [Delivery.toNode n l true])
           { reg with nodePeer := fun k => if k = n then true else reg.nodePeer k }
           hrest
      refine ⟨ds2, reg2, ?_, ?_, ?_⟩
      · simp only [nodeGroupLoop, hn, if_neg, hkn, if_pos]
        exact heq
      · intro d hd
        exact hpre d (by simp [hd])
      · intro p hp
        rcases List.mem_cons.mp hp with hpq | hp2
        · subst hpq
          exact ⟨true, hpre _ (by simp), fun _ => hkn⟩
        · exact hall p hp2

/-- Claim C6: for every destination address of a routed envelope: a null
node id sends the envelope to the session's local client peer when this
node is the session's entry node (stashing it when the client has not
connected), and otherwise adds a session-only destination to the entry
node's group; a destination for this node with a non-null computation id
is delivered to the tracked local computation peer; and every destination
with a different node id is grouped by that node id and the envelope is
enqueued on a node peer found in the registry or lazily created from the
session routing data's node map, with exactly the reduced destination
list for that node (plus, on a non-entry node, the session-only client
re-address in the entry node's group). -/
theorem c6_routeMessage (rd : RoutingData) (reg : RouterRegistry) (aTo : List Address)
    (hres : ∀ n, n ≠ nullUUID → n ≠ rd.nodeId → (∃ a ∈ aTo, a.node = n) →
        reg.nodePeer n = true ∨ rd.nodeInfoKnown n = true)
    (hentry : rd.isEntry = false →
        reg.nodePeer rd.entryNodeId = true ∨ rd.nodeInfoKnown rd.entryNodeId = true) :
    ∃ ds reg2, routeMessage rd reg aTo = .ok (ds, reg2)
      ∧ ((∃ a ∈ aTo, a.node = nullUUID) →
           (rd.isEntry = true → reg.clientPeer rd.sessionId = true →
              Delivery.clientQueue rd.sessionId ∈ ds)
           ∧ (rd.isEntry = true → reg.clientPeer rd.sessionId = false →
              Delivery.stashedForClient rd.sessionId ∈ ds)
           ∧ (rd.isEntry = false →
              ∃ l lazy, Delivery.toNode rd.entryNodeId l lazy ∈ ds
                ∧ (⟨rd.sessionId, nullUUID, nullUUID⟩ : Address) ∈ l))
      ∧ (∀ a ∈ aTo, a.node = rd.nodeId → a.node ≠ nullUUID →
           a.computation ≠ nullUUID → reg.ipcPeer a.computation = true →
           Delivery.toComputation a.computation ∈ ds)
      ∧ (∀ a ∈ aTo, a.node ≠ rd.nodeId → a.node ≠ nullUUID →
           ∃ l lazy, Delivery.toNode a.node l lazy ∈ ds
             ∧ a ∈ l
             ∧ (∀ b ∈ aTo, b.node = a.node → b ∈ l)
             ∧ (∀ b ∈ l, b.node = a.node
                  ∨ b = (⟨rd.sessionId, nullUUID, nullUUID⟩ : Address))
             ∧ (lazy = true → rd.nodeInfoKnown a.node = true)) := by
  classical
  set parsed := parseDestinationAddressLists rd.nodeId aTo with hparsed
  set ipcLists := parsed.1 with hipcLists
  set nodeLists0 := parsed.2.1 with hnodeLists0
  set toClient := parsed.2.2 with htoClient
  set clientDs : List Delivery :=
    (if toClient && rd.isEntry then
      if reg.clientPeer rd.sessionId then
        [Delivery.clientQueue rd.sessionId]
      else
        [Delivery.stashedForClient rd.sessionId]
    else []) with hclientDs
  set nodeLists : AddrGroups :=
    (if toClient && !rd.isEntry then
      addToGroup nodeLists0 rd.entryNodeId ⟨rd.sessionId, nullUUID, nullUUID⟩
    else nodeLists0) with hnodeLists
  set ipcDs : List Delivery := (ipcLists.map (fun p =>
    if reg.ipcPeer p.1 then Delivery.toComputation p.1
    else Delivery.compNotFound p.1)) with hipcDs
  have hroute : routeMessage rd reg aTo =
      match nodeGroupLoop rd nodeLists (clientDs ++ ipcDs) reg with
      | .ok r => .ok r
      | .error e => .error e := rfl
  -- every remote-node group key is resolvable
  have hkeys0 : ∀ p ∈ nodeLists0,
      reg.nodePeer p.1 = true ∨ rd.nodeInfoKnown p.1 = true := by
    intro p hp
    rcases parseDestLoop_nodeKeys rd.nodeId aTo [] [] false p hp with h1 | ⟨a, ha, h2, h3, h4⟩
    · simp at h1
    · exact hres p.1 h3 h4 ⟨a, ha, h2⟩
  have hkeys : ∀ p ∈ nodeLists,
      reg.nodePeer p.1 = true ∨ rd.nodeInfoKnown p.1 = true := by
    intro p hp
    rw [hnodeLists] at hp
    by_cases hcase : (toClient && !rd.isEntry) = true
    · rw [if_pos hcase] at hp
      rcases addToGroup_keys nodeLists0 rd.entryNodeId _ p hp with h1 | h1
      · rcases List.mem_map.mp h1 with ⟨q, hq, hqk⟩
        rw [← hqk]
        exact hkeys0 q hq
      · rw [h1]
        have hent : rd.isEntry = false := by
          cases he : rd.isEntry
          · rfl
          · rw [he] at hcase
            simp at hcase
        exact hentry hent
    · rw [if_neg hcase] at hp
      exact hkeys0 p hp
  obtain ⟨ds2, reg2, heq, hpre, hall⟩ :=
    nodeGroupLoop_total rd nodeLists (clientDs ++ ipcDs) reg hkeys
  refine ⟨ds2, reg2, by rw [hroute, heq], ?_, ?_, ?_⟩
  · -- client destinations
    intro hcl
    have htc : toClient = true := by
      rw [htoClient, hparsed]
      show (parseDestLoop rd.nodeId aTo [] [] false).2.2 = true
      rw [parseDestLoop_toClient]
      simp only [Bool.false_or, List.any_eq_true]
      obtain ⟨a, ha, h0⟩ := hcl
      exact ⟨a, ha, by simp [h0]⟩
    refine ⟨?_, ?_, ?_⟩
    · intro hent hcli
      refine hpre _ ?_
      rw [hclientDs, htc, hent]
      simp [hcli]
    · intro hent hcli
      refine hpre _ ?_
      rw [hclientDs, htc, hent]
      simp [hcli]
    · intro hent
      have hgrp : groupGet nodeLists rd.entryNodeId =
          groupGet nodeLists0 rd.entryNodeId ++ [⟨rd.sessionId, nullUUID, nullUUID⟩] := by
        rw [hnodeLists, htc, hent]
        simp only [Bool.not_false, Bool.and_self, if_pos]
        exact groupGet_addToGroup_self _ _ _
      have hne : groupGet nodeLists rd.entryNodeId ≠ [] := by
        rw [hgrp]
        simp
      have hmem := groupGet_mem nodeLists rd.entryNodeId hne
      obtain ⟨lazy, hdel, _⟩ := hall _ hmem
      refine ⟨groupGet nodeLists rd.entryNodeId, lazy, hdel, ?_⟩
      rw [hgrp]
      exact List.mem_append_right _ (by simp)
  · -- local computation destinations
    intro a ha hl h0 hc hip
    have hmem : a ∈ groupGet ipcLists a.computation := by
      rw [hipcLists, hparsed]
      exact parseDestLoop_ipcMem rd.nodeId aTo [] [] false a ha hl h0 hc
    have hne : groupGet ipcLists a.computation ≠ [] := by
      intro hempty
      rw [hempty] at hmem
      simp at hmem
    have hpair := groupGet_mem ipcLists a.computation hne
    have hdsmem : Delivery.toComputation a.computation ∈ ipcDs := by
      rw [hipcDs]
      have := List.mem_map_of_mem (fun p =>
        if reg.ipcPeer p.1 then Delivery.toComputation p.1
        else Delivery.compNotFound p.1) hpair
      simpa [hip] using this
    exact hpre _ (List.mem_append_right _ hdsmem)
  · -- remote node destinations
    intro a ha hl h0
    have hflt : groupGet nodeLists0 a.node =
        aTo.filter (fun b => decide (b.node = a.node)) := by
      rw [hnodeLists0, hparsed]
      show groupGet (parseDestLoop rd.nodeId aTo [] [] false).2.1 a.node = _
      rw [parseDestLoop_nodeGroup rd.nodeId aTo [] [] false a.node h0 hl]
      simp [groupGet]
    by_cases hea : (toClient && !rd.isEntry) = true ∧ a.node = rd.entryNodeId
    · -- the group also carries the client re-address
      obtain ⟨hcase, haent⟩ := hea
      have hgrp : groupGet nodeLists a.node =
          aTo.filter (fun b => decide (b.node = a.node))
          ++ [⟨rd.sessionId, nullUUID, nullUUID⟩] := by
        rw [hnodeLists, if_pos hcase, haent, groupGet_addToGroup_self, ← haent, hflt]
      have hamem : a ∈ groupGet nodeLists a.node := by
        rw [hgrp]
        refine List.mem_append_left _ ?_
        rw [List.mem_filter]
        exact ⟨ha, by simp⟩
      have hne : groupGet nodeLists a.node ≠ [] := by
        intro hempty
        rw [hempty] at hamem
        simp at hamem
      obtain ⟨lazy, hdel, hlz⟩ := hall _ (groupGet_mem nodeLists a.node hne)
      refine ⟨groupGet nodeLists a.node, lazy, hdel, hamem, ?_, ?_, hlz⟩
      · intro b hb hbn
        rw [hgrp]
        refine List.mem_append_left _ ?_
        rw [List.mem_filter]
        exact ⟨hb, by simp [hbn]⟩
      · intro b hb
        rw [hgrp] at hb
        rcases List.mem_append.mp hb with h1 | h1
        · left
          have := (List.mem_filter.mp h1).2
          simpa using this
        · right
          simpa using h1
    · -- plain group
      have hgrp : groupGet nodeLists a.node =
          aTo.filter (fun b => decide (b.node = a.node)) := by
        rw [hnodeLists]
        by_cases hcase : (toClient && !rd.isEntry) = true
        · have hane : a.node ≠ rd.entryNodeId := by
            intro hx
            exact hea ⟨hcase, hx⟩
          rw [if_pos hcase, groupGet_addToGroup_other _ _ _ _ hane, hflt]
        · rw [if_neg hcase, hflt]
      have hamem : a ∈ groupGet nodeLists a.node := by
        rw [hgrp, List.mem_filter]
        exact ⟨ha, by simp⟩
      have hne : groupGet nodeLists a.node ≠ [] := by
        intro hempty
        rw [hempty] at hamem
        simp at hamem
      obtain ⟨lazy, hdel, hlz⟩ := hall _ (groupGet_mem nodeLists a.node hne)
      refine ⟨groupGet nodeLists a.node, lazy, hdel, hamem, ?_, ?_, hlz⟩
      · intro b hb hbn
        rw [hgrp, List.mem_filter]
        exact ⟨hb, by simp [hbn]⟩
      · intro b hb
        rw [hgrp] at hb
        left
        have := (List.mem_filter.mp hb).2
        simpa using this

/-- Claim C6 witness: on non-entry node 2 of session 9, an envelope
addressed to the client (null node), to local computation 7, and to
remote node 3 is routed successfully: the computation peer gets it, node
3 gets its reduced group, and the client destination is re-addressed to
entry node 5 with a session-only address. -/
theorem c6_witness :
    (∀ n, n ≠ nullUUID → n ≠ rdW.nodeId → (∃ a ∈ aToW, a.node = n) →
        regW.nodePeer n = true ∨ rdW.nodeInfoKnown n = true)
  ∧ (rdW.isEntry = false →
        regW.nodePeer rdW.entryNodeId = true ∨ rdW.nodeInfoKnown rdW.entryNodeId = true)
  ∧ (∃ ds reg2, routeMessage rdW regW aToW = .ok (ds, reg2)
      ∧ Delivery.toComputation 7 ∈ ds
      ∧ (∃ l lazy, Delivery.toNode rdW.entryNodeId l lazy ∈ ds
            ∧ (⟨rdW.sessionId, nullUUID, nullUUID⟩ : Address) ∈ l)
      ∧ (∃ l lazy, Delivery.toNode 3 l lazy ∈ ds
            ∧ (⟨9, 3, 4⟩ : Address) ∈ l)) := by
  have hres : ∀ n, n ≠ nullUUID → n ≠ rdW.nodeId → (∃ a ∈ aToW, a.node = n) →
      regW.nodePeer n = true ∨ rdW.nodeInfoKnown n = true := by
    intro n hn0 hn2 hex
    obtain ⟨a, ha, han⟩ := hex
    right
    simp only [aToW, List.mem_cons, List.not_mem_nil, or_false] at ha
    rcases ha with h | h | h
    · rw [h] at han
      exact absurd han.symm hn0
    · rw [h] at han
      exact absurd han.symm hn2
    · rw [h] at han
      rw [← han]
      rfl
  have hentry : rdW.isEntry = false →
      regW.nodePeer rdW.entryNodeId = true ∨ rdW.nodeInfoKnown rdW.entryNodeId = true :=
    fun _ => Or.inr rfl
  obtain ⟨ds, reg2, heq, hclient, hipc, hnode⟩ := c6_routeMessage rdW regW aToW hres hentry
  refine ⟨hres, hentry, ds, reg2, heq, ?_, ?_, ?_⟩
  · exact hipc ⟨9, 2, 7⟩ (by simp [aToW]) rfl (by decide) (by decide) rfl
  · exact (hclient ⟨⟨9, 0, 0⟩, by simp [aToW], rfl⟩).2.2 rfl
  · obtain ⟨l, lazy, hdel, hmem, _, _, _⟩ :=
      hnode ⟨9, 3, 4⟩ (by simp [aToW]) (by decide) (by decide)
    exact ⟨l, lazy, hdel, hmem⟩

end Arras
